import Mathlib

/-!
Shallow embedding of the single-file FastAPI expense tracker (`src/app.py`).

The store (SQLite via SQLAlchemy) is modelled as an explicit `Store` value
holding the `users` and `expenses` tables together with the autoincrement
counters for their integer primary keys.  Each HTTP handler becomes a pure
Lean function over `Store`; mutating handlers return the (possibly updated)
store alongside an `Except`-style response, and an error response leaves the
store unchanged, matching the fact that the handlers commit only on the
success path.  Floating-point `amount`s are modelled as exact rationals.
The password-hashing backend (passlib/bcrypt, an external library) enters as
explicit function parameters `hash` / `verify`; the JWT backend (python-jose)
is modelled by the `Token` type below.
-/

namespace ExpenseTracker

instance {ε α : Type _} [DecidableEq ε] [DecidableEq α] : DecidableEq (Except ε α) :=
  fun x y =>
  match x, y with
  | .error a, .error b =>
    if h : a = b then .isTrue (by rw [h]) else .isFalse (by simp [h])
  | .error _, .ok _ => .isFalse (by simp)
  | .ok _, .error _ => .isFalse (by simp)
  | .ok a, .ok b =>
    if h : a = b then .isTrue (by rw [h]) else .isFalse (by simp [h])

/-- `users` table row: `id` (integer primary key), `email`, `hashed_password`. -/
structure User where
  id : Nat
  email : String
  hashed_password : String
  deriving Repr, DecidableEq

/-- `expenses` table row, mirroring the `Expense` ORM model: integer primary
key, `category`, `amount` (Float in source, modelled exactly as `ℚ`),
optional `comments`, `created_at` / `updated_at` timestamps (seconds, `Nat`)
and the `owner_id` foreign key. -/
structure Expense where
  id : Nat
  category : String
  amount : ℚ
  comments : Option String
  created_at : Nat
  updated_at : Nat
  owner_id : Nat
  deriving Repr, DecidableEq

/-- The SQLite database: both tables plus autoincrement counters for the two
integer primary keys. -/
structure Store where
  users : List User
  expenses : List Expense
  nextUserId : Nat
  nextExpenseId : Nat
  deriving Repr, DecidableEq

/-- Primary-key integrity of the store: row ids are unique in each table. -/
def Store.WF (s : Store) : Prop :=
  (s.users.map User.id).Nodup ∧ (s.expenses.map Expense.id).Nodup

/-- `SECRET_KEY = "change-this-in-production"` (module-level constant). -/
def SECRET_KEY : String := "change-this-in-production"

/-- `ACCESS_TOKEN_EXPIRE_MINUTES = 60`. -/
def ACCESS_TOKEN_EXPIRE_MINUTES : Nat := 60

/-- The JSON string stored under the `"sub"` claim, classified by Python's
`int()`: `intStr n` is a decimal integer string (the image of `str` on
integers, which `int()` parses back to `n`), `other` is any string `int()`
rejects with `ValueError`. -/
inductive SubClaim where
  | intStr (n : Int) : SubClaim
  | other : SubClaim
  deriving Repr, DecidableEq

/-- Python's `int(s)` on a `"sub"` claim string: succeeds exactly on decimal
integer strings. -/
def parseInt : SubClaim → Option Int
  | .intStr n => some n
  | .other => none

/-- A JWT as seen by `python-jose`.  `malformed` stands for any string that
does not parse as a JWT at all; `signed sub exp key` is a well-formed token
carrying an optional `"sub"` claim and an absolute `"exp"` claim, signed with
`key` (an invalid signature is modelled by `key ≠ SECRET_KEY`). -/
inductive Token where
  | malformed : Token
  | signed (sub : Option SubClaim) (exp : Nat) (key : String) : Token
  deriving Repr, DecidableEq

/-- Errors raised by the handlers via `HTTPException`, one constructor per
distinct (status, detail) pair in the source. -/
inductive ApiError where
  | duplicateEmail : ApiError      -- 400 "Email already registered"
  | invalidCredentials : ApiError  -- 400 "Incorrect email or password"
  | invalidToken : ApiError        -- 401 "Invalid token"
  | userNotFound : ApiError        -- 401 "User not found"
  | notFound : ApiError            -- 404 "Expense not found"
  deriving Repr, DecidableEq

/-- `create_access_token(data, minutes)`: copies the `"sub"` claim and adds
`exp = utcnow() + timedelta(minutes=minutes)`, signing with `SECRET_KEY`. -/
def create_access_token (sub : SubClaim) (now : Nat) (minutes : Nat) : Token :=
  .signed (some sub) (now + minutes * 60) SECRET_KEY

/-- `jwt.decode(token, SECRET_KEY, algorithms=[ALGORITHM])`: fails (raises)
when the token is malformed, the signature does not verify, or the `exp`
claim has passed; otherwise yields the payload's `"sub"` claim. -/
def jwtDecode (t : Token) (key : String) (now : Nat) : Option (Option SubClaim) :=
  match t with
  | .malformed => none
  | .signed sub exp k => if k = key ∧ now < exp then some sub else none

/-- `current_user(token, db)`: decode the JWT and parse `int(payload.get("sub"))`
(any exception → 401 "Invalid token"), then look the user id up in the
`users` table (absent → 401 "User not found"). -/
def current_user (t : Token) (now : Nat) (s : Store) : Except ApiError User :=
  match jwtDecode t SECRET_KEY now with
  | none => .error .invalidToken
  | some sub =>
    match sub.bind parseInt with
    | none => .error .invalidToken
    | some uid =>
      match s.users.find? (fun u => (u.id : Int) == uid) with
      | none => .error .userNotFound
      | some u => .ok u

/-- Response of `/auth/signup`: `{"id": user.id, "email": user.email}` —
the hash is not part of the response type. -/
structure SignupResponse where
  id : Nat
  email : String
  deriving Repr, DecidableEq

/-- `signup(email, password, db)`: 400 if a user with this email exists,
otherwise insert `User(email, hash_password(password))` and return the public
identity.  `hash` is the passlib `hash_password` backend. -/
def signup (hash : String → String) (email password : String) (s : Store) :
    Except ApiError SignupResponse × Store :=
  match s.users.find? (fun u => u.email == email) with
  | some _ => (.error .duplicateEmail, s)
  | none =>
    let u : User := ⟨s.nextUserId, email, hash password⟩
    (.ok ⟨u.id, u.email⟩,
      { s with users := s.users ++ [u], nextUserId := s.nextUserId + 1 })

/-- Response of `/auth/login`: `{"access_token": token, "token_type": "bearer"}`. -/
structure LoginResponse where
  access_token : Token
  token_type : String
  deriving Repr, DecidableEq

/-- `login(form, db)`: look the email up; if no user matches or the password
does not verify against the stored hash, 400 "Incorrect email or password";
otherwise issue `create_access_token({"sub": str(user.id)})`.  `verify` is
the passlib `verify_password` backend (plain, hashed ↦ Bool). -/
def login (verify : String → String → Bool) (username password : String)
    (now : Nat) (s : Store) : Except ApiError LoginResponse :=
  match s.users.find? (fun u => u.email == username) with
  | none => .error .invalidCredentials
  | some u =>
    if verify password u.hashed_password then
      .ok ⟨create_access_token (.intStr u.id) now ACCESS_TOKEN_EXPIRE_MINUTES, "bearer"⟩
    else
      .error .invalidCredentials

/-- `add_expense(category, amount, comments, db, user)`: insert an `Expense`
owned by the caller (timestamps set to the insertion instant by the server
defaults) and return the refreshed record. -/
def add_expense (category : String) (amount : ℚ) (comments : Option String)
    (t : Token) (now : Nat) (s : Store) : Except ApiError Expense × Store :=
  match current_user t now s with
  | .error e => (.error e, s)
  | .ok user =>
    let exp : Expense := ⟨s.nextExpenseId, category, amount, comments, now, now, user.id⟩
    (.ok exp,
      { s with expenses := s.expenses ++ [exp], nextExpenseId := s.nextExpenseId + 1 })

/-- The `ORDER BY created_at DESC` relation. -/
def createdDesc (a b : Expense) : Prop := b.created_at ≤ a.created_at

instance : DecidableRel createdDesc := fun a b => Nat.decLe b.created_at a.created_at

instance : IsTotal Expense createdDesc :=
  ⟨fun a b => le_total b.created_at a.created_at⟩

instance : IsTrans Expense createdDesc :=
  ⟨fun _ _ _ hab hbc => le_trans hbc hab⟩

/-- `list_expenses(db, user)`: all rows with `owner_id == user.id`, ordered
by `created_at` descending. -/
def list_expenses (t : Token) (now : Nat) (s : Store) :
    Except ApiError (List Expense) :=
  match current_user t now s with
  | .error e => .error e
  | .ok user =>
    .ok ((s.expenses.filter (fun e => e.owner_id == user.id)).insertionSort createdDesc)

/-- Response of a successful delete: `{"ok": True}`. -/
structure DeleteResponse where
  ok : Bool
  deriving Repr, DecidableEq

/-- `delete_expense(exp_id, db, user)`: find the first row with
`id == exp_id AND owner_id == user.id`; 404 if none, otherwise delete that
row (by primary key) and acknowledge. -/
def delete_expense (exp_id : Int) (t : Token) (now : Nat) (s : Store) :
    Except ApiError DeleteResponse × Store :=
  match current_user t now s with
  | .error e => (.error e, s)
  | .ok user =>
    match s.expenses.find? (fun e => (e.id : Int) == exp_id && e.owner_id == user.id) with
    | none => (.error .notFound, s)
    | some exp =>
      (.ok ⟨true⟩,
        { s with expenses := s.expenses.filter (fun e => ¬ e.id = exp.id) })

/-- Distinct categories of a row list, in order of first appearance (the
store-defined `GROUP BY` output order). -/
def groupLabels : List Expense → List String
  | [] => []
  | e :: rest => e.category :: (groupLabels rest).filter (fun c => ¬ c = e.category)

/-- `SUM(amount)` over the rows of `l` whose category is `c`. -/
def categorySum (l : List Expense) (c : String) : ℚ :=
  ((l.filter (fun e => e.category == c)).map Expense.amount).sum

/-- Response of `/expenses/summary`: `{"labels": [...], "data": [...]}`. -/
structure SummaryResponse where
  labels : List String
  data : List ℚ
  deriving Repr, DecidableEq

/-- `summary(db, user)`: `SELECT category, SUM(amount) ... WHERE owner_id ==
user.id GROUP BY category`, returned as the two parallel lists. -/
def summary (t : Token) (now : Nat) (s : Store) :
    Except ApiError SummaryResponse :=
  match current_user t now s with
  | .error e => .error e
  | .ok user =>
    let mine := s.expenses.filter (fun e => e.owner_id == user.id)
    let labels := groupLabels mine
    .ok ⟨labels, labels.map (categorySum mine)⟩

/-! ## Shared lemmas about token resolution -/

/-- A presented token that `jwt.decode` rejects: not a JWT at all, signed
with a key other than `SECRET_KEY`, or with its `exp` claim in the past. -/
def badToken (t : Token) (now : Nat) : Prop :=
  t = .malformed ∨ ∃ sub exp key, t = .signed sub exp key ∧ (¬ key = SECRET_KEY ∨ exp ≤ now)

theorem jwtDecode_badToken {t : Token} {now : Nat} (h : badToken t now) :
    jwtDecode t SECRET_KEY now = none := by
  rcases h with h | ⟨sub, exp, key, rfl, h⟩
  · subst h; rfl
  · simp only [jwtDecode, ite_eq_right_iff]
    rintro ⟨rfl, hlt⟩
    rcases h with h | h
    · exact absurd rfl h
    · exact absurd hlt (Nat.not_lt.mpr h)

theorem current_user_badToken {t : Token} {now : Nat} (s : Store) (h : badToken t now) :
    current_user t now s = .error .invalidToken := by
  simp only [current_user, jwtDecode_badToken h]

/-- A successfully resolved caller is a stored user whose id matches the
parsed `"sub"` claim of the token. -/
theorem current_user_ok {t : Token} {now : Nat} {s : Store} {u : User}
    (h : current_user t now s = .ok u) :
    u ∈ s.users ∧ ∃ sub, jwtDecode t SECRET_KEY now = some sub ∧
      sub.bind parseInt = some (u.id : Int) := by
  unfold current_user at h
  split at h
  · exact absurd h (by simp)
  rename_i sub hdec
  split at h
  · exact absurd h (by simp)
  rename_i uid hp
  split at h
  · exact absurd h (by simp)
  rename_i v hf
  obtain rfl : v = u := by simpa using h
  have hpred := List.find?_some hf
  simp only [beq_iff_eq] at hpred
  exact ⟨List.mem_of_find?_eq_some hf, sub, hdec, by rw [hp, hpred]⟩

theorem list_expenses_err {t : Token} {now : Nat} {s : Store} {e : ApiError}
    (h : current_user t now s = .error e) : list_expenses t now s = .error e := by
  simp only [list_expenses, h]

theorem summary_err {t : Token} {now : Nat} {s : Store} {e : ApiError}
    (h : current_user t now s = .error e) : summary t now s = .error e := by
  simp only [summary, h]

theorem add_expense_err {category : String} {amount : ℚ} {comments : Option String}
    {t : Token} {now : Nat} {s : Store} {e : ApiError}
    (h : current_user t now s = .error e) :
    add_expense category amount comments t now s = (.error e, s) := by
  simp only [add_expense, h]

theorem delete_expense_err {eid : Int} {t : Token} {now : Nat} {s : Store} {e : ApiError}
    (h : current_user t now s = .error e) :
    delete_expense eid t now s = (.error e, s) := by
  simp only [delete_expense, h]

/-! ## Sample data used by the witnesses -/

def userA : User := ⟨1, "a@x.com", "h-pw1"⟩

def userB : User := ⟨2, "b@x.com", "h-pw2"⟩

def expFood1 : Expense := ⟨1, "food", 25 / 2, none, 10, 10, 1⟩

def expFood2 : Expense := ⟨2, "food", 15 / 2, none, 11, 11, 1⟩

def expFuel : Expense := ⟨3, "fuel", 40, none, 12, 12, 1⟩

def expB : Expense := ⟨4, "rent", 100, some "b's flat", 9, 9, 2⟩

def sampleStore : Store := ⟨[userA, userB], [expFood1, expFood2, expFuel, expB], 3, 5⟩

/-- A token for `userA` issued at time 0, valid at time 5. -/
def tokenA : Token := create_access_token (.intStr 1) 0 ACCESS_TOKEN_EXPIRE_MINUTES

/-- A token for `userB` issued at time 0, valid at time 5. -/
def tokenB : Token := create_access_token (.intStr 2) 0 ACCESS_TOKEN_EXPIRE_MINUTES

/-! ## Claims -/

/-- C4: every protected expense operation fails with the 401 invalid-token
error when the presented token is malformed, has an invalid signature, or its
expiry has passed; and a token issued for user id `aid`, when accepted by
`current_user`, resolves to a stored user whose id is `aid` — hence never to
any other user. -/
theorem C4_token_validity (t : Token) (now : Nat) (s : Store)
    (category : String) (amount : ℚ) (comments : Option String) (eid : Int) :
    (badToken t now →
      current_user t now s = .error .invalidToken ∧
      list_expenses t now s = .error .invalidToken ∧
      summary t now s = .error .invalidToken ∧
      add_expense category amount comments t now s = (.error .invalidToken, s) ∧
      delete_expense eid t now s = (.error .invalidToken, s)) ∧
    (∀ (aid : Int) (iat minutes : Nat) (u : User),
      current_user (create_access_token (.intStr aid) iat minutes) now s = .ok u →
      (u.id : Int) = aid ∧ ∀ b : User, (b.id : Int) ≠ aid → u.id ≠ b.id) := by
  constructor
  · intro hbad
    have hcu := current_user_badToken s hbad
    exact ⟨hcu, list_expenses_err hcu, summary_err hcu, add_expense_err hcu,
      delete_expense_err hcu⟩
  · intro aid iat minutes u h
    obtain ⟨-, sub, hdec, hparse⟩ := current_user_ok h
    have hsub : sub = some (.intStr aid) := by
      by_cases hlt : now < iat + minutes * 60
      · simpa [create_access_token, jwtDecode, hlt] using hdec.symm
      · simp [create_access_token, jwtDecode, hlt] at hdec
    subst hsub
    have hid : (u.id : Int) = aid := by
      have := hparse
      simp [parseInt] at this
      omega
    refine ⟨hid, fun b hb hub => hb ?_⟩
    rw [← hub]
    exact hid

theorem C4_token_validity_witness :
    (badToken .malformed 5 ∧
      current_user .malformed 5 sampleStore = .error .invalidToken) ∧
    (current_user tokenA 5 sampleStore = .ok userA ∧ (userA.id : Int) = 1) :=
  ⟨⟨Or.inl rfl,
    ((C4_token_validity .malformed 5 sampleStore "food" 1 none 1).1 (Or.inl rfl)).1⟩,
   ⟨rfl,
    ((C4_token_validity tokenA 5 sampleStore "food" 1 none 1).2 1 0
      ACCESS_TOKEN_EXPIRE_MINUTES userA rfl).1⟩⟩

/-- C9 (implicit): a well-formed, correctly signed, unexpired token whose
`"sub"` id matches no stored user is rejected with the 401 user-not-found
error by `current_user`, and hence by every protected expense operation. -/
theorem C9_deleted_user_token (uid : Int) (exp now : Nat) (s : Store)
    (hexp : now < exp) (hno : ∀ u ∈ s.users, (u.id : Int) ≠ uid)
    (category : String) (amount : ℚ) (comments : Option String) (eid : Int) :
    current_user (.signed (some (.intStr uid)) exp SECRET_KEY) now s
        = .error .userNotFound ∧
    list_expenses (.signed (some (.intStr uid)) exp SECRET_KEY) now s
        = .error .userNotFound ∧
    summary (.signed (some (.intStr uid)) exp SECRET_KEY) now s
        = .error .userNotFound ∧
    add_expense category amount comments (.signed (some (.intStr uid)) exp SECRET_KEY) now s
        = (.error .userNotFound, s) ∧
    delete_expense eid (.signed (some (.intStr uid)) exp SECRET_KEY) now s
        = (.error .userNotFound, s) := by
  have hfind : s.users.find? (fun u => (u.id : Int) == uid) = none := by
    rw [List.find?_eq_none]
    intro u hu
    simpa using hno u hu
  have hcu : current_user (.signed (some (.intStr uid)) exp SECRET_KEY) now s
      = .error .userNotFound := by
    simp [current_user, jwtDecode, hexp, parseInt, hfind]
  exact ⟨hcu, list_expenses_err hcu, summary_err hcu, add_expense_err hcu,
    delete_expense_err hcu⟩

theorem C9_deleted_user_token_witness :
    (0 < 3600 ∧ ∀ u ∈ sampleStore.users, (u.id : Int) ≠ 99) ∧
    current_user (.signed (some (.intStr 99)) 3600 SECRET_KEY) 0 sampleStore
      = .error .userNotFound :=
  ⟨⟨by decide, by decide⟩,
   (C9_deleted_user_token 99 3600 0 sampleStore (by decide) (by decide)
     "food" 1 none 1).1⟩

/-- When the caller resolves, `list_expenses` returns exactly the insertion
sort of the owner-filtered table. -/
theorem list_expenses_ok {t : Token} {now : Nat} {s : Store} {u : User} {l : List Expense}
    (hu : current_user t now s = .ok u) (hl : list_expenses t now s = .ok l) :
    l = (s.expenses.filter (fun e => e.owner_id == u.id)).insertionSort createdDesc := by
  simp only [list_expenses, hu] at hl
  exact ((by simpa using hl : _ = l)).symm

/-- C1: every expense returned by `list_expenses` is owned by the
authenticated caller; consequently an expense of any other user (in
particular one created by a distinct user A when the caller is B) is never
included. -/
theorem C1_owner_isolation (t : Token) (now : Nat) (s : Store) (u : User) (l : List Expense)
    (hu : current_user t now s = .ok u) (hl : list_expenses t now s = .ok l) :
    (∀ e ∈ l, e.owner_id = u.id) ∧ ∀ e : Expense, e.owner_id ≠ u.id → e ∉ l := by
  obtain rfl := list_expenses_ok hu hl
  have hmem : ∀ e ∈ (s.expenses.filter (fun e => e.owner_id == u.id)).insertionSort createdDesc,
      e.owner_id = u.id := by
    intro e he
    have := (List.perm_insertionSort createdDesc _).subset he
    simpa using (List.mem_filter.mp this).2
  exact ⟨hmem, fun e hne he => hne (hmem e he)⟩

theorem C1_owner_isolation_witness :
    current_user tokenB 5 sampleStore = .ok userB ∧
    list_expenses tokenB 5 sampleStore = .ok [expB] ∧
    expFood1.owner_id ≠ userB.id ∧ expFood1 ∉ [expB] :=
  ⟨rfl, rfl, by decide,
    (C1_owner_isolation tokenB 5 sampleStore userB [expB] rfl rfl).2 expFood1 (by decide)⟩

/-- C7: `list_expenses` returns a permutation of all of the caller's
expenses (no pagination or truncation), sorted by `created_at` descending. -/
theorem C7_list_ordering (t : Token) (now : Nat) (s : Store) (u : User) (l : List Expense)
    (hu : current_user t now s = .ok u) (hl : list_expenses t now s = .ok l) :
    l.Perm (s.expenses.filter (fun e => e.owner_id == u.id)) ∧
    l.Pairwise (fun a b => b.created_at ≤ a.created_at) := by
  obtain rfl := list_expenses_ok hu hl
  exact ⟨List.perm_insertionSort createdDesc _, List.sorted_insertionSort createdDesc _⟩

theorem C7_list_ordering_witness :
    current_user tokenA 5 sampleStore = .ok userA ∧
    list_expenses tokenA 5 sampleStore = .ok [expFuel, expFood2, expFood1] ∧
    [expFuel, expFood2, expFood1].Pairwise (fun a b => b.created_at ≤ a.created_at) :=
  ⟨rfl, rfl,
    (C7_list_ordering tokenA 5 sampleStore userA [expFuel, expFood2, expFood1] rfl rfl).2⟩

/-- C8: for every authenticated caller and every category, amount (negative
and zero included) and optional comment, `add_expense` succeeds, appends
exactly one expense owned by the caller and returns the created record with
its generated id and both timestamps. -/
theorem C8_create_postcondition (category : String) (amount : ℚ) (comments : Option String)
    (t : Token) (now : Nat) (s : Store) (u : User)
    (hu : current_user t now s = .ok u) :
    add_expense category amount comments t now s =
      (.ok ⟨s.nextExpenseId, category, amount, comments, now, now, u.id⟩,
       { s with
          expenses := s.expenses ++ [⟨s.nextExpenseId, category, amount, comments, now, now, u.id⟩],
          nextExpenseId := s.nextExpenseId + 1 }) := by
  simp only [add_expense, hu]

theorem C8_create_postcondition_witness :
    current_user tokenA 5 sampleStore = .ok userA ∧
    add_expense "misc" (-5) none tokenA 5 sampleStore =
      (.ok ⟨sampleStore.nextExpenseId, "misc", -5, none, 5, 5, userA.id⟩,
       { sampleStore with
          expenses := sampleStore.expenses ++
            [⟨sampleStore.nextExpenseId, "misc", -5, none, 5, 5, userA.id⟩],
          nextExpenseId := sampleStore.nextExpenseId + 1 }) :=
  ⟨rfl, C8_create_postcondition "misc" (-5) none tokenA 5 sampleStore userA rfl⟩

/-- C3: given an authenticated caller, `delete_expense` fails with the 404
not-found error exactly when no stored expense has the requested id and the
caller as owner (an expense of another user behaves as nonexistent), and in
that case the store is unchanged; when a matching expense exists the call
returns `{ok: true}` and the matching expense is removed. -/
theorem C3_delete_semantics (eid : Int) (t : Token) (now : Nat) (s : Store) (u : User)
    (hu : current_user t now s = .ok u) :
    ((delete_expense eid t now s).1 = .error .notFound ↔
      ∀ e ∈ s.expenses, ¬((e.id : Int) = eid ∧ e.owner_id = u.id)) ∧
    ((delete_expense eid t now s).1 = .error .notFound →
      (delete_expense eid t now s).2 = s) ∧
    ((∃ e ∈ s.expenses, (e.id : Int) = eid ∧ e.owner_id = u.id) →
      ∃ e ∈ s.expenses, (e.id : Int) = eid ∧ e.owner_id = u.id ∧
        (delete_expense eid t now s).1 = .ok ⟨true⟩ ∧
        e ∉ (delete_expense eid t now s).2.expenses) := by
  rcases hfind : s.expenses.find? (fun e => (e.id : Int) == eid && e.owner_id == u.id)
    with _ | exp
  · have hres : delete_expense eid t now s = (.error .notFound, s) := by
      simp only [delete_expense, hu, hfind]
    rw [List.find?_eq_none] at hfind
    refine ⟨⟨fun _ e he hmatch => ?_, fun _ => by simp [hres]⟩,
      fun _ => by simp [hres], fun ⟨e, he, hid, hown⟩ => ?_⟩
    · exact hfind e he (by simp [hmatch.1, hmatch.2])
    · exact absurd (by simp [hid, hown] : _ = true) (hfind e he)
  · have hres : delete_expense eid t now s =
        (.ok ⟨true⟩, { s with expenses := s.expenses.filter (fun e => ¬ e.id = exp.id) }) := by
      simp only [delete_expense, hu, hfind]
    have hpred := List.find?_some hfind
    simp only [Bool.and_eq_true, beq_iff_eq] at hpred
    have hmem := List.mem_of_find?_eq_some hfind
    refine ⟨⟨fun habs => by simp [hres] at habs, fun hall => ?_⟩,
      fun habs => by simp [hres] at habs, fun _ => ?_⟩
    · exact absurd ⟨hpred.1, hpred.2⟩ (hall exp hmem)
    · refine ⟨exp, hmem, hpred.1, hpred.2, by simp [hres], ?_⟩
      simp [hres, List.mem_filter]

theorem C3_delete_semantics_witness :
    current_user tokenB 5 sampleStore = .ok userB ∧
    ((delete_expense 1 tokenB 5 sampleStore).1 = .error .notFound ↔
      ∀ e ∈ sampleStore.expenses, ¬((e.id : Int) = 1 ∧ e.owner_id = userB.id)) :=
  ⟨rfl, (C3_delete_semantics 1 tokenB 5 sampleStore userB rfl).1⟩

/-- C10 (implicit): a successful `delete_expense` on a well-formed store
removes exactly the one matching expense: the users table and both id
counters are untouched, the matching expense is gone, and every other
expense row is preserved. -/
theorem C10_delete_frame (eid : Int) (t : Token) (now : Nat) (s : Store) (u : User)
    (r : DeleteResponse) (hu : current_user t now s = .ok u) (hwf : s.WF)
    (hok : (delete_expense eid t now s).1 = .ok r) :
    (delete_expense eid t now s).2.users = s.users ∧
    (delete_expense eid t now s).2.nextUserId = s.nextUserId ∧
    (delete_expense eid t now s).2.nextExpenseId = s.nextExpenseId ∧
    ∃ ex ∈ s.expenses, (ex.id : Int) = eid ∧ ex.owner_id = u.id ∧
      ex ∉ (delete_expense eid t now s).2.expenses ∧
      (∀ e ∈ s.expenses, e ≠ ex → e ∈ (delete_expense eid t now s).2.expenses) ∧
      (∀ e ∈ (delete_expense eid t now s).2.expenses, e ∈ s.expenses ∧ e ≠ ex) := by
  rcases hfind : s.expenses.find? (fun e => (e.id : Int) == eid && e.owner_id == u.id)
    with _ | exp
  · have : (delete_expense eid t now s).1 = .error .notFound := by
      simp only [delete_expense, hu, hfind]
    simp [this] at hok
  · have hres : delete_expense eid t now s =
        (.ok ⟨true⟩, { s with expenses := s.expenses.filter (fun e => ¬ e.id = exp.id) }) := by
      simp only [delete_expense, hu, hfind]
    have hpred := List.find?_some hfind
    simp only [Bool.and_eq_true, beq_iff_eq] at hpred
    have hmem := List.mem_of_find?_eq_some hfind
    have hinj := List.inj_on_of_nodup_map hwf.2
    refine ⟨by simp [hres], by simp [hres], by simp [hres],
      exp, hmem, hpred.1, hpred.2, by simp [hres, List.mem_filter], ?_, ?_⟩
    · intro e he hne
      have hid : ¬ e.id = exp.id := fun hid => hne (hinj he hmem hid)
      simp [hres, List.mem_filter, he, hid]
    · intro e he
      rw [hres] at he
      simp only [List.mem_filter, decide_not, Bool.not_eq_eq_eq_not, Bool.not_true,
        decide_eq_false_iff_not] at he
      exact ⟨he.1, fun hne => he.2 (by rw [hne])⟩

theorem C10_delete_frame_witness :
    current_user tokenA 5 sampleStore = .ok userA ∧ sampleStore.WF ∧
    (delete_expense 3 tokenA 5 sampleStore).1 = .ok ⟨true⟩ ∧
    (delete_expense 3 tokenA 5 sampleStore).2.users = sampleStore.users :=
  ⟨rfl, ⟨by decide, by decide⟩, rfl,
    (C10_delete_frame 3 tokenA 5 sampleStore userA ⟨true⟩ rfl ⟨by decide, by decide⟩ rfl).1⟩

/-- C5: signup with an email already present always fails with the
duplicate-email error and returns the store unchanged (the existing user
record included); with a fresh email it appends exactly one user holding the
hashed password and returns only the public identity `{id, email}` — the
response type carries no hash field. -/
theorem C5_signup_duplicate (hash : String → String) (email password : String) (s : Store) :
    ((∃ u ∈ s.users, u.email = email) →
      signup hash email password s = (.error .duplicateEmail, s)) ∧
    ((∀ u ∈ s.users, u.email ≠ email) →
      signup hash email password s =
        (.ok ⟨s.nextUserId, email⟩,
         { s with users := s.users ++ [⟨s.nextUserId, email, hash password⟩],
                  nextUserId := s.nextUserId + 1 })) := by
  rcases hfind : s.users.find? (fun u => u.email == email) with _ | u
  · rw [List.find?_eq_none] at hfind
    constructor
    · rintro ⟨u, hu, he⟩
      exact absurd (by simp [he]) (hfind u hu)
    · intro _
      simp only [signup]
      rw [List.find?_eq_none.mpr (fun u hu => by simpa using hfind u hu)]
  · have hpred := List.find?_some hfind
    simp only [beq_iff_eq] at hpred
    have hmem := List.mem_of_find?_eq_some hfind
    constructor
    · intro _
      simp only [signup, hfind]
    · intro hall
      exact absurd hpred (hall u hmem)

theorem C5_signup_duplicate_witness :
    (∃ u ∈ sampleStore.users, u.email = "a@x.com") ∧
    signup (fun p => "h-" ++ p) "a@x.com" "other" sampleStore
      = (.error .duplicateEmail, sampleStore) ∧
    (∀ u ∈ sampleStore.users, u.email ≠ "c@x.com") ∧
    signup (fun p => "h-" ++ p) "c@x.com" "pw3" sampleStore =
      (.ok ⟨sampleStore.nextUserId, "c@x.com"⟩,
       { sampleStore with
          users := sampleStore.users ++ [⟨sampleStore.nextUserId, "c@x.com", "h-pw3"⟩],
          nextUserId := sampleStore.nextUserId + 1 }) :=
  ⟨by decide,
   (C5_signup_duplicate (fun p => "h-" ++ p) "a@x.com" "other" sampleStore).1 (by decide),
   by decide,
   (C5_signup_duplicate (fun p => "h-" ++ p) "c@x.com" "pw3" sampleStore).2 (by decide)⟩

/-- C6: login answers with the single generic invalid-credentials error both
when the email is unknown and when the password fails verification against
the stored hash; on success it returns a token whose `"sub"` claim is the
matched user's id, whose expiry is exactly 60 minutes after issuance, signed
with the configured key, paired with the token-type marker `"bearer"`. -/
theorem C6_login_indistinguishable (verify : String → String → Bool)
    (username password : String) (now : Nat) (s : Store) :
    ((∀ u ∈ s.users, u.email ≠ username) →
      login verify username password now s = .error .invalidCredentials) ∧
    (∀ u, s.users.find? (fun v => v.email == username) = some u →
      (verify password u.hashed_password = false →
        login verify username password now s = .error .invalidCredentials) ∧
      (verify password u.hashed_password = true →
        login verify username password now s =
          .ok ⟨.signed (some (.intStr u.id)) (now + 60 * 60) SECRET_KEY, "bearer"⟩)) := by
  constructor
  · intro hall
    simp only [login]
    rw [List.find?_eq_none.mpr (fun u hu => by simpa using hall u hu)]
  · intro u hfind
    constructor
    · intro hv
      simp only [login, hfind, hv]
      simp
    · intro hv
      simp only [login, hfind, hv]
      simp only [if_true]
      rfl

theorem C6_login_indistinguishable_witness :
    (∀ u ∈ sampleStore.users, u.email ≠ "nobody@x.com") ∧
    login (fun p h => h == "h-" ++ p) "nobody@x.com" "pw1" 7 sampleStore
      = .error .invalidCredentials ∧
    sampleStore.users.find? (fun v => v.email == "a@x.com") = some userA ∧
    login (fun p h => h == "h-" ++ p) "a@x.com" "pw1" 7 sampleStore =
      .ok ⟨.signed (some (.intStr userA.id)) (7 + 60 * 60) SECRET_KEY, "bearer"⟩ :=
  ⟨by decide,
   (C6_login_indistinguishable (fun p h => h == "h-" ++ p) "nobody@x.com" "pw1" 7
     sampleStore).1 (by decide),
   by decide,
   ((C6_login_indistinguishable (fun p h => h == "h-" ++ p) "a@x.com" "pw1" 7
     sampleStore).2 userA (by decide)).2 (by decide)⟩

theorem mem_groupLabels (c : String) (l : List Expense) :
    c ∈ groupLabels l ↔ ∃ e ∈ l, e.category = c := by
  induction l with
  | nil => simp [groupLabels]
  | cons e rest ih =>
    constructor
    · intro h
      rcases List.mem_cons.mp h with h | h
      · exact ⟨e, List.mem_cons_self _ _, h.symm⟩
      · obtain ⟨e', he', hc⟩ := ih.mp (List.mem_filter.mp h).1
        exact ⟨e', List.mem_cons_of_mem _ he', hc⟩
    · rintro ⟨e', he', hc⟩
      rcases List.mem_cons.mp he' with rfl | he'
      · rw [← hc]
        exact List.mem_cons_self _ _
      · by_cases hce : c = e.category
        · rw [hce]
          exact List.mem_cons_self _ _
        · exact List.mem_cons_of_mem _
            (List.mem_filter.mpr ⟨ih.mpr ⟨e', he', hc⟩, by simp [hce]⟩)

theorem nodup_groupLabels (l : List Expense) : (groupLabels l).Nodup := by
  induction l with
  | nil => simp [groupLabels]
  | cons e rest ih =>
    rw [show groupLabels (e :: rest)
        = e.category :: (groupLabels rest).filter (fun c => ¬ c = e.category) from rfl,
      List.nodup_cons]
    refine ⟨fun hmem => ?_, ih.filter _⟩
    have := (List.mem_filter.mp hmem).2
    simp at this

theorem categorySum_perm {l₁ l₂ : List Expense} (h : l₁.Perm l₂) (c : String) :
    categorySum l₁ c = categorySum l₂ c :=
  ((h.filter _).map Expense.amount).sum_eq

/-- C2: for an authenticated caller, the labels of `summary` are exactly the
distinct categories of the expenses `list_expenses` returns (a category with
no matching expense is absent, and no label repeats), and `data` is the
pointwise image of `labels` under the per-category sum over the listed
expenses — parallel sequences with matching indices. -/
theorem C2_summary_roundtrip (t : Token) (now : Nat) (s : Store) (u : User)
    (labels : List String) (data : List ℚ) (lst : List Expense)
    (hu : current_user t now s = .ok u)
    (hsum : summary t now s = .ok ⟨labels, data⟩)
    (hl : list_expenses t now s = .ok lst) :
    data = labels.map (categorySum lst) ∧
    (∀ c : String, c ∈ labels ↔ ∃ e ∈ lst, e.category = c) ∧
    labels.Nodup := by
  obtain rfl := list_expenses_ok hu hl
  simp only [summary, hu, Except.ok.injEq, SummaryResponse.mk.injEq] at hsum
  obtain ⟨hlab, hdat⟩ := hsum
  subst hlab
  have hperm := List.perm_insertionSort createdDesc
    (s.expenses.filter (fun e => e.owner_id == u.id))
  refine ⟨?_, fun c => ?_, nodup_groupLabels _⟩
  · rw [← hdat]
    exact (List.map_congr_left fun c _ => categorySum_perm hperm c).symm
  · rw [mem_groupLabels]
    constructor
    · rintro ⟨e, he, hc⟩
      exact ⟨e, hperm.mem_iff.mpr he, hc⟩
    · rintro ⟨e, he, hc⟩
      exact ⟨e, hperm.mem_iff.mp he, hc⟩

theorem C2_summary_roundtrip_witness :
    current_user tokenA 5 sampleStore = .ok userA ∧
    summary tokenA 5 sampleStore =
      .ok ⟨["food", "fuel"],
           [categorySum [expFood1, expFood2, expFuel] "food",
            categorySum [expFood1, expFood2, expFuel] "fuel"]⟩ ∧
    list_expenses tokenA 5 sampleStore = .ok [expFuel, expFood2, expFood1] ∧
    [categorySum [expFood1, expFood2, expFuel] "food",
     categorySum [expFood1, expFood2, expFuel] "fuel"]
      = ["food", "fuel"].map (categorySum [expFuel, expFood2, expFood1]) :=
  ⟨rfl, rfl, rfl,
    (C2_summary_roundtrip tokenA 5 sampleStore userA ["food", "fuel"]
      [categorySum [expFood1, expFood2, expFuel] "food",
       categorySum [expFood1, expFood2, expFuel] "fuel"]
      [expFuel, expFood2, expFood1] rfl rfl rfl).1⟩

end ExpenseTracker
